import Mathlib

/-!
# Verification of `optimize_pareto_front` (src/scripts/pareto_optimization.py)

Shallow embedding of the Pareto-front extraction engine of the
HITL_Adaptive_Active_Learning_Lithium repository.

Modelling conventions:

* A pandas `DataFrame` is a list of column names plus a list of rows; each row
  carries its pandas index label (`Row.label`) and one `Cell` per column.
* Float cell values are modelled as rationals (`Cell.num`); the float `NaN` is
  the distinguished constructor `Cell.nan`; non-numeric (object-dtype) cell
  values are `Cell.str`.  IEEE infinities are outside the modelled value
  domain, so a stored float objective is "`< float('inf')`" exactly when it is
  not `NaN`.
* The NSGA-II optimizer (the external `platypus` library) is a black box: the
  embedded function is parameterised by a `search` function standing for
  `NSGAII(ParetoProblem(df_clean, c1, c2), population_size).run(generations)`
  followed by reading `algorithm.result`.  A `Solution` carries the integer
  decision value `int(solution.variables[0])` and the two stored float
  objectives (`none` modelling `NaN`).  A search that raises is an
  `Except.error` outcome.
* `try/except` is modelled by `tryBody` (the body of the `try` block, raising
  via `Except.error`) and `optimize_pareto_front` (the whole function, whose
  `except` arm builds the two degraded empty tables of lines 112-116).
-/

namespace Pareto

/-- One cell of a dataframe: a (finite) float modelled as a rational, the
float `NaN`, or a non-numeric object value. -/
inductive Cell where
  | num (q : ℚ)
  | nan
  | str (s : String)
deriving DecidableEq

/-- One dataframe row: its pandas index label plus its cell values, in column
order. -/
structure Row where
  label : ℕ
  cells : List Cell
deriving DecidableEq

/-- A pandas dataframe: named columns and labelled rows. -/
structure DataFrame where
  cols : List String
  rows : List Row
deriving DecidableEq

/-- `df.empty`: true when either axis has length 0. -/
def DataFrame.isEmpty (df : DataFrame) : Bool :=
  df.rows.isEmpty || df.cols.isEmpty

/-- Position of column `c` in the column list (callers guard existence via the
missing-column validation, as the source does). -/
def DataFrame.colIdx (df : DataFrame) (c : String) : ℕ :=
  df.cols.indexOf c

/-- The cell of a row at column position `i` (`row[col]`). -/
def cellAt (i : ℕ) (cs : List Cell) : Cell :=
  cs.getD i Cell.nan

/-- The cell of row `r` at column position `i`. -/
def rowObj (i : ℕ) (r : Row) : Cell :=
  cellAt i r.cells

/-- A cell compatible with a numeric dtype: a number or `NaN`. -/
def isNumericCell : Cell → Bool
  | Cell.num _ => true
  | Cell.nan => true
  | Cell.str _ => false

/-- `pd.api.types.is_numeric_dtype(df[c])`: every cell of the column is
numeric data (a float or `NaN`). -/
def is_numeric_dtype (df : DataFrame) (c : String) : Bool :=
  df.rows.all (fun r => isNumericCell (rowObj (df.colIdx c) r))

/-- Whether the cell at position `i` is not missing (pandas `notna`). -/
def notNanAt (i : ℕ) (r : Row) : Bool :=
  match rowObj i r with
  | Cell.nan => false
  | _ => true

/-- Line 59: `df.dropna(subset=[c1, c2])` — drop every row with a missing
value in either objective column; labels and column order are preserved. -/
def DataFrame.dropna (df : DataFrame) (c1 c2 : String) : DataFrame :=
  ⟨df.cols, df.rows.filter (fun r => notNanAt (df.colIdx c1) r && notNanAt (df.colIdx c2) r)⟩

/-- One member of `algorithm.result`: the decoded integer decision value and
the two stored float objectives (`none` models `NaN`). -/
structure Solution where
  idx : ℕ
  obj1 : Option ℚ
  obj2 : Option ℚ
deriving DecidableEq

/-- A stored float objective read back as a float: numbers survive, `NaN`
becomes `none`; an object cell cannot be stored as a float objective. -/
def cellToObj : Cell → Option ℚ
  | Cell.num q => some q
  | _ => none

/-- Lines 74-78, `ParetoProblem.evaluate`: resolve `data.iloc[idx]` and read
its two objective-column values; `none` when `idx` is out of bounds (pandas
raises there, which the outer `except` absorbs). -/
def evaluateSolution (clean : DataFrame) (c1 c2 : String) (idx : ℕ) :
    Option (Option ℚ × Option ℚ) :=
  (clean.rows[idx]?).map fun r =>
    (cellToObj (rowObj (clean.colIdx c1) r), cellToObj (rowObj (clean.colIdx c2) r))

/-- Line 93: `df_clean.iloc[idx:idx+1]` — the one-row slice, empty when `idx`
is past the end. -/
def ilocSlice (rows : List Row) (idx : ℕ) : List Row :=
  (rows.drop idx).take 1

/-- Lines 90-96: walk `algorithm.result`; keep a solution's source row exactly
when both stored objectives are `< float('inf')` (i.e. not `NaN` in the
modelled value domain), concatenating the one-row slices in result order. -/
def collectRows (clean : List Row) : List Solution → List Row
  | [] => []
  | s :: ss =>
    if s.obj1.isSome && s.obj2.isSome then
      ilocSlice clean s.idx ++ collectRows clean ss
    else
      collectRows clean ss

/-- Recursion for `drop_duplicates`: keep a row when its cell values have not
been seen yet (pandas compares the column values, not the index label, and
keeps the first occurrence). -/
def dedupSeen (seen : List (List Cell)) : List Row → List Row
  | [] => []
  | r :: rs =>
    if r.cells ∈ seen then dedupSeen seen rs
    else r :: dedupSeen (r.cells :: seen) rs

/-- Line 99: `pareto_front_unique.drop_duplicates()`. -/
def drop_duplicates (rows : List Row) : List Row :=
  dedupSeen [] rows

/-- Strict sort-key comparison on cells: numbers by value; every number sorts
before a missing key (pandas `na_position='last'`). -/
def keyLt : Cell → Cell → Bool
  | Cell.num a, Cell.num b => decide (a < b)
  | Cell.num _, _ => true
  | _, _ => false

/-- Sort-key equality on cells: numbers by value; all non-number keys tie. -/
def keyEq : Cell → Cell → Bool
  | Cell.num a, Cell.num b => decide (a = b)
  | Cell.num _, _ => false
  | _, Cell.num _ => false
  | _, _ => true

/-- Non-strict sort-key comparison. -/
def keyLe (c c' : Cell) : Bool :=
  keyLt c c' || keyEq c c'

/-- The row order realised by `sort_values([c1, c2])` (columns at positions
`i1`, `i2`): ascending primarily by the first key, ties broken by the
second. -/
def RowLe (i1 i2 : ℕ) (r r' : Row) : Prop :=
  keyLt (rowObj i1 r) (rowObj i1 r') = true ∨
    (keyEq (rowObj i1 r) (rowObj i1 r') = true ∧ keyLe (rowObj i2 r) (rowObj i2 r') = true)

instance (i1 i2 : ℕ) : DecidableRel (RowLe i1 i2) := fun r r' => by
  unfold RowLe
  infer_instance

/-- Line 100: `sort_values([obj1_col, obj2_col])` — reorder the rows so the
lexicographic key pair ascends (the embedding fixes insertion sort as the
realisation of the library call's ordering contract). -/
def sort_values (i1 i2 : ℕ) (rows : List Row) : List Row :=
  List.insertionSort (RowLe i1 i2) rows

/-- Line 107: `pareto_front_unique[[obj1_col, obj2_col]]` — project every row
to its two objective cells, keeping labels and order. -/
def selectTwoCols (i1 i2 : ℕ) (rows : List Row) : List Row :=
  rows.map (fun r => ⟨r.label, [rowObj i1 r, rowObj i2 r]⟩)

/-- Helper for `reset_index`: relabel rows `k, k+1, ...` keeping the cells. -/
def relabelFrom : ℕ → List Row → List Row
  | _, [] => []
  | k, r :: rs => ⟨k, r.cells⟩ :: relabelFrom (k + 1) rs

/-- Line 108: `reset_index(drop=True)` — replace the labels by the dense range
`0..k-1`. -/
def reset_index (rows : List Row) : List Row :=
  relabelFrom 0 rows

/-- Lines 103-104: the under-target message, emitted exactly when fewer unique
Pareto points were found than requested; it is advisory output only. -/
def underTargetWarning (nUnique minUnique : ℕ) : Option String :=
  if nUnique < minUnique then
    some ("Warning: Only " ++ toString nUnique ++
      " unique Pareto points found (requested: " ++ toString minUnique ++ ")")
  else none

/-- The errors the function body can raise: the four `ValueError`s of the
validation phase (lines 46-61) and any exception escaping the search engine. -/
inductive PError where
  | emptyInput
  | missingCols (cols : List String)
  | nonNumeric (c1 c2 : String)
  | noValidData
  | searchFail (msg : String)
deriving DecidableEq

/-- Which errors belong to the validation phase. -/
def PError.isValidation : PError → Bool
  | PError.searchFail _ => false
  | _ => true

/-- The human-readable message of each raised error (the `ValueError`
f-strings of lines 47, 52, 56, 61). -/
def PError.message : PError → String
  | PError.emptyInput => "Input dataframe is empty"
  | PError.missingCols cs => "Missing required columns: " ++ String.intercalate ", " cs
  | PError.nonNumeric c1 c2 => "Objective columns " ++ c1 ++ " and " ++ c2 ++ " must be numeric"
  | PError.noValidData => "No valid data after removing NaN values"
  | PError.searchFail m => m

/-- The signature of the black-box evolutionary search: it receives the
cleaned table, the two objective column names, `population_size` and
`generations`, and returns `algorithm.result` — or raises. -/
def SearchFn : Type :=
  DataFrame → String → String → ℕ → ℕ → Except String (List Solution)

/-- Lines 44-110, the body of the `try` block: validation in source order
(empty input, missing columns, non-numeric objectives, empty table after NaN
removal), then the search, then frontier reconstruction (collect, dedup,
sort) and the two output views. -/
def tryBody (search : SearchFn) (df : DataFrame) (c1 c2 : String)
    (minUnique popSize gens : ℕ) : Except PError (DataFrame × DataFrame) :=
  if df.isEmpty then Except.error PError.emptyInput
  else
    let missing := [c1, c2].filter (fun c => !(df.cols.contains c))
    if !missing.isEmpty then Except.error (PError.missingCols missing)
    else if !(is_numeric_dtype df c1 && is_numeric_dtype df c2) then
      Except.error (PError.nonNumeric c1 c2)
    else
      let clean := df.dropna c1 c2
      if clean.rows.isEmpty then Except.error PError.noValidData
      else
        match search clean c1 c2 popSize gens with
        | Except.error m => Except.error (PError.searchFail m)
        | Except.ok result =>
          let i1 := clean.colIdx c1
          let i2 := clean.colIdx c2
          let front := sort_values i1 i2 (drop_duplicates (collectRows clean.rows result))
          Except.ok
            (⟨[c1, c2], reset_index (selectTwoCols i1 i2 front)⟩,
             ⟨clean.cols, front⟩)

/-- The whole function `optimize_pareto_front`: run the `try` body; on any
raised error, fall to the `except` arm (lines 112-116) and return the two
degraded empty tables.  `minUnique` is `min_unique_points` (it only gates the
advisory warning, see `underTargetWarning`). -/
def optimize_pareto_front (search : SearchFn) (df : DataFrame) (c1 c2 : String)
    (minUnique popSize gens : ℕ) : DataFrame × DataFrame :=
  match tryBody search df c1 c2 minUnique popSize gens with
  | Except.ok out => out
  | Except.error _ =>
    (⟨[c1, c2], []⟩, ⟨if df.isEmpty then [] else df.cols, []⟩)

/-! ## Helper lemmas about the embedded operations -/

theorem mem_ilocSlice {rows : List Row} {idx : ℕ} {r : Row}
    (h : r ∈ ilocSlice rows idx) : r ∈ rows := by
  unfold ilocSlice at h
  exact List.drop_subset idx rows (List.take_subset 1 _ h)

theorem ilocSlice_eq_of_getElem? {rows : List Row} {idx : ℕ} {r : Row}
    (h : rows[idx]? = some r) : ilocSlice rows idx = [r] := by
  induction rows generalizing idx with
  | nil => simp at h
  | cons a l ih =>
    cases idx with
    | zero =>
      simp at h
      simp [ilocSlice, h]
    | succ n =>
      simp at h
      simpa [ilocSlice] using ih h

theorem mem_collectRows {clean : List Row} {result : List Solution} {r : Row}
    (h : r ∈ collectRows clean result) : r ∈ clean := by
  induction result with
  | nil => simp [collectRows] at h
  | cons s ss ih =>
    unfold collectRows at h
    split at h
    · rcases List.mem_append.mp h with h' | h'
      · exact mem_ilocSlice h'
      · exact ih h'
    · exact ih h

theorem mem_collectRows_of_sol {clean : List Row} {result : List Solution}
    {s : Solution} {r : Row} (hs : s ∈ result)
    (h1 : s.obj1.isSome = true) (h2 : s.obj2.isSome = true)
    (hr : clean[s.idx]? = some r) : r ∈ collectRows clean result := by
  induction result with
  | nil => simp at hs
  | cons t ts ih =>
    rcases List.mem_cons.mp hs with rfl | hmem
    · unfold collectRows
      rw [if_pos (by simp [h1, h2])]
      rw [ilocSlice_eq_of_getElem? hr]
      simp
    · unfold collectRows
      split
      · exact List.mem_append.mpr (Or.inr (ih hmem))
      · exact ih hmem

theorem mem_dedupSeen {seen : List (List Cell)} {rows : List Row} {r : Row}
    (h : r ∈ dedupSeen seen rows) : r ∈ rows := by
  induction rows generalizing seen with
  | nil => simp [dedupSeen] at h
  | cons a l ih =>
    unfold dedupSeen at h
    split at h
    · exact List.mem_cons_of_mem _ (ih h)
    · rcases List.mem_cons.mp h with rfl | h'
      · exact List.mem_cons_self _ _
      · exact List.mem_cons_of_mem _ (ih h')

theorem cells_not_seen_of_mem_dedupSeen {seen : List (List Cell)} {rows : List Row} {r : Row}
    (h : r ∈ dedupSeen seen rows) : r.cells ∉ seen := by
  induction rows generalizing seen with
  | nil => simp [dedupSeen] at h
  | cons a l ih =>
    unfold dedupSeen at h
    split at h
    · exact ih h
    · rcases List.mem_cons.mp h with rfl | h'
      · assumption
      · have := ih h'
        intro hmem
        exact this (List.mem_cons_of_mem _ hmem)

theorem pairwise_dedupSeen (seen : List (List Cell)) (rows : List Row) :
    List.Pairwise (fun a b => a.cells ≠ b.cells) (dedupSeen seen rows) := by
  induction rows generalizing seen with
  | nil => simp [dedupSeen]
  | cons a l ih =>
    unfold dedupSeen
    split
    · exact ih seen
    · refine List.Pairwise.cons ?_ (ih (a.cells :: seen))
      intro b hb heq
      have := cells_not_seen_of_mem_dedupSeen hb
      exact this (heq ▸ List.mem_cons_self _ _)

theorem exists_cells_mem_dedupSeen {rows : List Row} {r : Row} :
    ∀ seen : List (List Cell), r ∈ rows →
    r.cells ∈ seen ∨ ∃ r' ∈ dedupSeen seen rows, r'.cells = r.cells := by
  induction rows with
  | nil => intro seen h; simp at h
  | cons a l ih =>
    intro seen h
    rcases List.mem_cons.mp h with rfl | h'
    · unfold dedupSeen
      by_cases hmem : r.cells ∈ seen
      · exact Or.inl hmem
      · right
        rw [if_neg hmem]
        exact ⟨r, List.mem_cons_self _ _, rfl⟩
    · unfold dedupSeen
      by_cases hmem : a.cells ∈ seen
      · rw [if_pos hmem]
        exact ih seen h'
      · rw [if_neg hmem]
        rcases ih (a.cells :: seen) h' with hseen | ⟨r', hr', hcells⟩
        · rcases List.mem_cons.mp hseen with heq | hseen'
          · exact Or.inr ⟨a, List.mem_cons_self _ _, heq.symm⟩
          · exact Or.inl hseen'
        · exact Or.inr ⟨r', List.mem_cons_of_mem _ hr', hcells⟩

theorem exists_cells_mem_drop_duplicates {rows : List Row} {r : Row} (h : r ∈ rows) :
    ∃ r' ∈ drop_duplicates rows, r'.cells = r.cells := by
  rcases exists_cells_mem_dedupSeen [] h with hseen | hfound
  · simp at hseen
  · exact hfound

theorem pairwise_drop_duplicates (rows : List Row) :
    List.Pairwise (fun a b => a.cells ≠ b.cells) (drop_duplicates rows) :=
  pairwise_dedupSeen [] rows

theorem mem_drop_duplicates {rows : List Row} {r : Row} (h : r ∈ drop_duplicates rows) :
    r ∈ rows :=
  mem_dedupSeen h

theorem keyEq_symm {x y : Cell} (h : keyEq x y = true) : keyEq y x = true := by
  cases x <;> cases y <;> simp_all [keyEq]

theorem keyEq_trans {x y z : Cell} (h1 : keyEq x y = true) (h2 : keyEq y z = true) :
    keyEq x z = true := by
  cases x <;> cases y <;> cases z <;> simp_all [keyEq]

theorem keyLt_trans {x y z : Cell} (h1 : keyLt x y = true) (h2 : keyLt y z = true) :
    keyLt x z = true := by
  cases x <;> cases y <;> cases z <;> simp_all [keyLt] <;> linarith

theorem keyLt_of_keyLt_of_keyEq {x y z : Cell} (h1 : keyLt x y = true)
    (h2 : keyEq y z = true) : keyLt x z = true := by
  cases x <;> cases y <;> cases z <;> simp_all [keyLt, keyEq]

theorem keyLt_of_keyEq_of_keyLt {x y z : Cell} (h1 : keyEq x y = true)
    (h2 : keyLt y z = true) : keyLt x z = true := by
  cases x <;> cases y <;> cases z <;> simp_all [keyLt, keyEq]

theorem keyLt_or_keyEq_or_keyLt (x y : Cell) :
    keyLt x y = true ∨ keyEq x y = true ∨ keyLt y x = true := by
  cases x <;> cases y <;> simp [keyLt, keyEq]
  rename_i a b
  rcases lt_trichotomy a b with h | h | h
  · exact Or.inl h
  · exact Or.inr (Or.inl h)
  · exact Or.inr (Or.inr h)

theorem keyLe_trans {x y z : Cell} (h1 : keyLe x y = true) (h2 : keyLe y z = true) :
    keyLe x z = true := by
  unfold keyLe at *
  rcases Bool.or_eq_true_iff.mp h1 with h1' | h1' <;>
    rcases Bool.or_eq_true_iff.mp h2 with h2' | h2'
  · exact Bool.or_eq_true_iff.mpr (Or.inl (keyLt_trans h1' h2'))
  · exact Bool.or_eq_true_iff.mpr (Or.inl (keyLt_of_keyLt_of_keyEq h1' h2'))
  · exact Bool.or_eq_true_iff.mpr (Or.inl (keyLt_of_keyEq_of_keyLt h1' h2'))
  · exact Bool.or_eq_true_iff.mpr (Or.inr (keyEq_trans h1' h2'))

theorem rowLe_total (i1 i2 : ℕ) (r r' : Row) : RowLe i1 i2 r r' ∨ RowLe i1 i2 r' r := by
  rcases keyLt_or_keyEq_or_keyLt (rowObj i1 r) (rowObj i1 r') with h | h | h
  · exact Or.inl (Or.inl h)
  · rcases keyLt_or_keyEq_or_keyLt (rowObj i2 r) (rowObj i2 r') with h2 | h2 | h2
    · exact Or.inl (Or.inr ⟨h, Bool.or_eq_true_iff.mpr (Or.inl h2)⟩)
    · exact Or.inl (Or.inr ⟨h, Bool.or_eq_true_iff.mpr (Or.inr h2)⟩)
    · exact Or.inr (Or.inr ⟨keyEq_symm h, Bool.or_eq_true_iff.mpr (Or.inl h2)⟩)
  · exact Or.inr (Or.inl h)

theorem rowLe_trans {i1 i2 : ℕ} {a b c : Row} (h1 : RowLe i1 i2 a b)
    (h2 : RowLe i1 i2 b c) : RowLe i1 i2 a c := by
  rcases h1 with h1 | ⟨h1e, h1l⟩ <;> rcases h2 with h2 | ⟨h2e, h2l⟩
  · exact Or.inl (keyLt_trans h1 h2)
  · exact Or.inl (keyLt_of_keyLt_of_keyEq h1 h2e)
  · exact Or.inl (keyLt_of_keyEq_of_keyLt h1e h2)
  · exact Or.inr ⟨keyEq_trans h1e h2e, keyLe_trans h1l h2l⟩

instance (i1 i2 : ℕ) : IsTotal Row (RowLe i1 i2) :=
  ⟨rowLe_total i1 i2⟩

instance (i1 i2 : ℕ) : IsTrans Row (RowLe i1 i2) :=
  ⟨fun _ _ _ => rowLe_trans⟩

theorem sort_values_perm (i1 i2 : ℕ) (rows : List Row) :
    List.Perm (sort_values i1 i2 rows) rows :=
  List.perm_insertionSort (RowLe i1 i2) rows

theorem mem_sort_values {i1 i2 : ℕ} {rows : List Row} {r : Row} :
    r ∈ sort_values i1 i2 rows ↔ r ∈ rows :=
  List.mem_insertionSort (RowLe i1 i2)

theorem sorted_sort_values (i1 i2 : ℕ) (rows : List Row) :
    List.Sorted (RowLe i1 i2) (sort_values i1 i2 rows) :=
  List.sorted_insertionSort (RowLe i1 i2) rows

/-- On the success path every row of the cleaned table carries an actual
number in the first objective column: the dtype is numeric (so no object
cells) and `dropna` removed the `NaN`s. -/
theorem exists_num_left {df : DataFrame} {c1 c2 : String} {r : Row}
    (hnum : is_numeric_dtype df c1 = true) (hr : r ∈ (df.dropna c1 c2).rows) :
    ∃ q : ℚ, rowObj (df.colIdx c1) r = Cell.num q := by
  rcases List.mem_filter.mp hr with ⟨hmem, hcond⟩
  have hnn : notNanAt (df.colIdx c1) r = true := by
    rcases Bool.and_eq_true_iff.mp hcond with ⟨h1, _⟩
    exact h1
  have hn : isNumericCell (rowObj (df.colIdx c1) r) = true :=
    List.all_eq_true.mp hnum r hmem
  unfold notNanAt at hnn
  cases h : rowObj (df.colIdx c1) r with
  | num q => exact ⟨q, rfl⟩
  | nan => rw [h] at hnn; simp at hnn
  | str s => rw [h] at hn; simp [isNumericCell] at hn

/-- Same as `exists_num_left` for the second objective column. -/
theorem exists_num_right {df : DataFrame} {c1 c2 : String} {r : Row}
    (hnum : is_numeric_dtype df c2 = true) (hr : r ∈ (df.dropna c1 c2).rows) :
    ∃ q : ℚ, rowObj (df.colIdx c2) r = Cell.num q := by
  rcases List.mem_filter.mp hr with ⟨hmem, hcond⟩
  have hnn : notNanAt (df.colIdx c2) r = true := by
    rcases Bool.and_eq_true_iff.mp hcond with ⟨_, h2⟩
    exact h2
  have hn : isNumericCell (rowObj (df.colIdx c2) r) = true :=
    List.all_eq_true.mp hnum r hmem
  unfold notNanAt at hnn
  cases h : rowObj (df.colIdx c2) r with
  | num q => exact ⟨q, rfl⟩
  | nan => rw [h] at hnn; simp at hnn
  | str s => rw [h] at hn; simp [isNumericCell] at hn

/-- The frontier of the success path, as reconstructed by lines 88-100:
collected rows, deduplicated, then sorted by the two objective columns. -/
def frontierOf (df : DataFrame) (c1 c2 : String) (result : List Solution) : List Row :=
  sort_values ((df.dropna c1 c2).colIdx c1) ((df.dropna c1 c2).colIdx c2)
    (drop_duplicates (collectRows (df.dropna c1 c2).rows result))

/-- Inversion of the success path: a `tryBody` call that returns `ok` passed
every validation check, its search succeeded, and the output pair is exactly
the projected / full view of the reconstructed frontier. -/
theorem tryBody_ok_elim {search : SearchFn} {df : DataFrame} {c1 c2 : String}
    {m p g : ℕ} {out : DataFrame × DataFrame}
    (h : tryBody search df c1 c2 m p g = Except.ok out) :
    df.isEmpty = false ∧
    [c1, c2].filter (fun c => !(df.cols.contains c)) = [] ∧
    is_numeric_dtype df c1 = true ∧ is_numeric_dtype df c2 = true ∧
    (df.dropna c1 c2).rows.isEmpty = false ∧
    ∃ result, search (df.dropna c1 c2) c1 c2 p g = Except.ok result ∧
      out = (⟨[c1, c2],
               reset_index (selectTwoCols ((df.dropna c1 c2).colIdx c1)
                 ((df.dropna c1 c2).colIdx c2) (frontierOf df c1 c2 result))⟩,
             ⟨(df.dropna c1 c2).cols, frontierOf df c1 c2 result⟩) := by
  simp only [tryBody] at h
  split at h
  · simp at h
  next hempty =>
    split at h
    · simp at h
    next hmissing =>
      split at h
      · simp at h
      next hnum =>
        split at h
        · simp at h
        next hclean =>
          split at h
          next msg hsearch =>
            simp at h
          next result hsearch =>
            refine ⟨by simpa using hempty, by simpa using hmissing, ?_, ?_, by simpa using hclean,
              result, hsearch, ?_⟩
            · rcases Bool.and_eq_true_iff.mp (by simpa using hnum) with ⟨h1, _⟩
              exact h1
            · rcases Bool.and_eq_true_iff.mp (by simpa using hnum) with ⟨_, h2⟩
              exact h2
            · simpa [frontierOf] using h.symm

theorem length_relabelFrom (k : ℕ) (l : List Row) :
    (relabelFrom k l).length = l.length := by
  induction l generalizing k with
  | nil => simp [relabelFrom]
  | cons a l ih => simp [relabelFrom, ih]

theorem relabelFrom_getElem? (l : List Row) (k n : ℕ) :
    (relabelFrom k l)[n]? = l[n]?.map (fun r => ⟨k + n, r.cells⟩) := by
  induction l generalizing k n with
  | nil => simp [relabelFrom]
  | cons a l ih =>
    cases n with
    | zero => simp [relabelFrom]
    | succ n' =>
      simp only [relabelFrom, List.getElem?_cons_succ, ih (k + 1) n']
      simp only [show k + 1 + n' = k + (n' + 1) from by omega]

theorem relabelFrom_map_cells (k : ℕ) (l : List Row) :
    (relabelFrom k l).map Row.cells = l.map Row.cells := by
  induction l generalizing k with
  | nil => simp [relabelFrom]
  | cons a l ih => simp [relabelFrom, ih]

theorem reset_index_getElem? (l : List Row) (n : ℕ) :
    (reset_index l)[n]? = l[n]?.map (fun r => ⟨n, r.cells⟩) := by
  simpa using relabelFrom_getElem? l 0 n

theorem length_reset_index (l : List Row) : (reset_index l).length = l.length :=
  length_relabelFrom 0 l

theorem length_selectTwoCols (i1 i2 : ℕ) (l : List Row) :
    (selectTwoCols i1 i2 l).length = l.length := by
  simp [selectTwoCols]

theorem selectTwoCols_getElem? (i1 i2 : ℕ) (l : List Row) (n : ℕ) :
    (selectTwoCols i1 i2 l)[n]? = l[n]?.map (fun r => ⟨r.label, [rowObj i1 r, rowObj i2 r]⟩) := by
  simp [selectTwoCols]

/-! ## Concrete instances used to witness the claim theorems -/

/-- A small candidate table: two objective columns and a pass-through column;
rows 1 and 2 share objective values but differ in the extra column. -/
def exDF : DataFrame :=
  ⟨["m", "c", "tag"],
   [⟨0, [Cell.num 3, Cell.num 7, Cell.str "x"]⟩,
    ⟨1, [Cell.num 1, Cell.num 9, Cell.str "y"]⟩,
    ⟨2, [Cell.num 1, Cell.num 9, Cell.str "z"]⟩]⟩

/-- A possible optimizer result over `exDF`: all three rows selected, one of
them twice (duplicate indices across solutions are expected). -/
def exResult : List Solution :=
  [⟨0, some 3, some 7⟩, ⟨1, some 1, some 9⟩, ⟨2, some 1, some 9⟩, ⟨1, some 1, some 9⟩]

/-- A search behaviour returning `exResult`. -/
def exSearch : SearchFn := fun _ _ _ _ _ => Except.ok exResult

/-- The objective-only output of the pipeline on `exDF` with `exSearch`. -/
def exObjOut : DataFrame :=
  ⟨["m", "c"],
   [⟨0, [Cell.num 1, Cell.num 9]⟩, ⟨1, [Cell.num 1, Cell.num 9]⟩, ⟨2, [Cell.num 3, Cell.num 7]⟩]⟩

/-- The full-row output of the pipeline on `exDF` with `exSearch`. -/
def exFullOut : DataFrame :=
  ⟨["m", "c", "tag"],
   [⟨1, [Cell.num 1, Cell.num 9, Cell.str "y"]⟩,
    ⟨2, [Cell.num 1, Cell.num 9, Cell.str "z"]⟩,
    ⟨0, [Cell.num 3, Cell.num 7, Cell.str "x"]⟩]⟩

/-- A dataframe with both axes empty. -/
def exEmptyDF : DataFrame := ⟨[], []⟩

/-- A dataframe missing the objective columns. -/
def exOneColDF : DataFrame := ⟨["a"], [⟨0, [Cell.num 1]⟩]⟩

/-- A trivial search behaviour (empty result). -/
def exSearchNone : SearchFn := fun _ _ _ _ _ => Except.ok []

/-- A family of search behaviours indexed by a random seed, standing for the
global-RNG-seeded `platypus` engine. -/
def exSeedSearch : ℕ → SearchFn :=
  fun seed _ _ _ _ _ => Except.ok (if seed = 0 then [] else exResult)

/-! ## Claim theorems -/

/-- **C2** `optimize_pareto_front` never propagates an exception: the embedded
function is total, and whenever the `try` body raises (any validation or
search failure `e`), the `except` arm returns exactly the two well-formed
empty tables: an empty objective-only table with columns `[c1, c2]` and an
empty full-row table with the input's columns, or no columns if the input was
empty. -/
theorem optimize_pareto_front_error_shape (search : SearchFn) (df : DataFrame)
    (c1 c2 : String) (m p g : ℕ) (e : PError)
    (h : tryBody search df c1 c2 m p g = Except.error e) :
    optimize_pareto_front search df c1 c2 m p g =
      (⟨[c1, c2], []⟩, ⟨if df.isEmpty then [] else df.cols, []⟩) := by
  unfold optimize_pareto_front
  rw [h]

/-- Witness for C2 at a concrete failing input (empty dataframe). -/
theorem optimize_pareto_front_error_shape_witness :
    optimize_pareto_front exSearchNone exEmptyDF "fini_Mg" "fini_Ca" 30 100 50 =
      (⟨["fini_Mg", "fini_Ca"], []⟩,
       ⟨if exEmptyDF.isEmpty then [] else exEmptyDF.cols, []⟩) :=
  optimize_pareto_front_error_shape exSearchNone exEmptyDF "fini_Mg" "fini_Ca" 30 100 50
    PError.emptyInput rfl

/-- The validation-failure condition of C3: empty input, a missing objective
column, a non-numeric objective column, or no rows left after NaN removal. -/
def ValidationFailure (df : DataFrame) (c1 c2 : String) : Prop :=
  df.isEmpty = true ∨ c1 ∉ df.cols ∨ c2 ∉ df.cols ∨
    is_numeric_dtype df c1 = false ∨ is_numeric_dtype df c2 = false ∨
    (df.dropna c1 c2).rows = []

/-- **C3** On any validation failure the function raises a validation error
(naming the missing columns in the missing-column case) before any search
work: the raised error is the same for every search behaviour, so the
evolutionary search is never invoked. -/
theorem validation_before_search (df : DataFrame) (c1 c2 : String)
    (h : ValidationFailure df c1 c2) :
    ∃ e : PError, e.isValidation = true ∧
      (∀ (search : SearchFn) (m p g : ℕ),
        tryBody search df c1 c2 m p g = Except.error e) ∧
      (df.isEmpty = false →
        [c1, c2].filter (fun c => !(df.cols.contains c)) ≠ [] →
        e = PError.missingCols ([c1, c2].filter (fun c => !(df.cols.contains c)))) := by
  by_cases hE : df.isEmpty = true
  · refine ⟨PError.emptyInput, rfl, fun search m p g => ?_, fun hf _ => ?_⟩
    · simp [tryBody, hE]
    · rw [hE] at hf; cases hf
  · have hE' : df.isEmpty = false := by simpa using hE
    by_cases hM : [c1, c2].filter (fun c => !(df.cols.contains c)) = []
    · have hc1 : c1 ∈ df.cols := by
        have := List.filter_eq_nil_iff.mp hM c1 (by simp)
        simpa using this
      have hc2 : c2 ∈ df.cols := by
        have := List.filter_eq_nil_iff.mp hM c2 (by simp)
        simpa using this
      by_cases hN : (is_numeric_dtype df c1 && is_numeric_dtype df c2) = true
      · have hclean : (df.dropna c1 c2).rows = [] := by
          rcases h with h | h | h | h | h | h
          · exact absurd h hE
          · exact absurd hc1 h
          · exact absurd hc2 h
          · rcases Bool.and_eq_true_iff.mp hN with ⟨h1, _⟩
            rw [h1] at h; cases h
          · rcases Bool.and_eq_true_iff.mp hN with ⟨_, h2⟩
            rw [h2] at h; cases h
          · exact h
        refine ⟨PError.noValidData, rfl, fun search m p g => ?_, fun _ hne => absurd hM hne⟩
        simp [tryBody, hE', hc1, hc2, hN, hclean]
      · refine ⟨PError.nonNumeric c1 c2, rfl, fun search m p g => ?_, fun _ hne => absurd hM hne⟩
        have hN' : (is_numeric_dtype df c1 && is_numeric_dtype df c2) = false := by
          simpa using hN
        simp [tryBody, hE', hc1, hc2, hN']
    · refine ⟨PError.missingCols _, rfl, fun search m p g => ?_, fun _ _ => rfl⟩
      have hnm : ¬(c1 ∈ df.cols ∧ c2 ∈ df.cols) := by
        rintro ⟨h1, h2⟩
        exact hM (by simp [List.filter_eq_nil_iff, h1, h2])
      simp [tryBody, hE', hnm]

/-- Witness for C3 at a concrete input missing both objective columns. -/
theorem validation_before_search_witness :
    ∃ e : PError, e.isValidation = true ∧
      (∀ (search : SearchFn) (m p g : ℕ),
        tryBody search exOneColDF "fini_Mg" "fini_Ca" m p g = Except.error e) ∧
      (exOneColDF.isEmpty = false →
        ["fini_Mg", "fini_Ca"].filter (fun c => !(exOneColDF.cols.contains c)) ≠ [] →
        e = PError.missingCols
          (["fini_Mg", "fini_Ca"].filter (fun c => !(exOneColDF.cols.contains c)))) :=
  validation_before_search exOneColDF "fini_Mg" "fini_Ca" (Or.inr (Or.inl (by decide)))

/-- **C5** The returned full-row frontier never contains two rows with equal
values across all columns, whatever the optimizer returned (duplicate indices
included): `drop_duplicates` runs before the output is built. -/
theorem frontier_no_duplicate_rows (search : SearchFn) (df : DataFrame)
    (c1 c2 : String) (m p g : ℕ) :
    List.Pairwise (fun a b => a.cells ≠ b.cells)
      (optimize_pareto_front search df c1 c2 m p g).2.rows := by
  unfold optimize_pareto_front
  cases htb : tryBody search df c1 c2 m p g with
  | error e => simp
  | ok out =>
    obtain ⟨-, -, -, -, -, result, -, hout⟩ := tryBody_ok_elim htb
    subst hout
    simp only [frontierOf]
    have hperm := sort_values_perm ((df.dropna c1 c2).colIdx c1) ((df.dropna c1 c2).colIdx c2)
      (drop_duplicates (collectRows (df.dropna c1 c2).rows result))
    exact (hperm.pairwise_iff (fun h e => h e.symm)).mpr (pairwise_drop_duplicates _)

/-- **C8** `min_unique_points` never changes the returned tables (the whole
output is independent of it), and the under-target condition is reported only
through the advisory warning message of lines 103-104, which is present
exactly when the unique count is below target. -/
theorem min_unique_points_nonbinding (search : SearchFn) (df : DataFrame)
    (c1 c2 : String) (p g : ℕ) :
    (∀ m m', optimize_pareto_front search df c1 c2 m p g =
      optimize_pareto_front search df c1 c2 m' p g) ∧
    (∀ k m, k < m → ∃ w, underTargetWarning k m = some w) ∧
    (∀ k m, m ≤ k → underTargetWarning k m = none) := by
  refine ⟨fun m m' => rfl,
    fun k m hk => ⟨"Warning: Only " ++ toString k ++
      " unique Pareto points found (requested: " ++ toString m ++ ")", ?_⟩,
    fun k m hk => ?_⟩
  · simp [underTargetWarning, hk]
  · simp [underTargetWarning, Nat.not_lt.mpr hk]

/-- Witness for C8: a vastly under-target `min_unique_points` leaves the
output unchanged and only produces a warning. -/
theorem min_unique_points_nonbinding_witness :
    optimize_pareto_front exSearch exDF "m" "c" 1000 10 20 =
      optimize_pareto_front exSearch exDF "m" "c" 30 10 20 ∧
    (∃ w, underTargetWarning 3 1000 = some w) := by
  obtain ⟨h1, h2, -⟩ := min_unique_points_nonbinding exSearch exDF "m" "c" 10 20
  exact ⟨h1 1000 30, h2 3 1000 (by decide)⟩

/-- **C9** Determinism under a fixed seed: the embedding is a pure function of
the optimizer behaviour (itself a function of the seed, standing for the
globally seeded RNG the search engine draws from) and the inputs, so two
calls with equal seeds and equal inputs return identical frontiers. -/
theorem deterministic_under_seed (search : ℕ → SearchFn) (seed seed' : ℕ)
    (df df' : DataFrame) (c1 c1' c2 c2' : String) (m m' p p' g g' : ℕ)
    (hseed : seed = seed') (hdf : df = df') (hc1 : c1 = c1') (hc2 : c2 = c2')
    (hm : m = m') (hp : p = p') (hg : g = g') :
    optimize_pareto_front (search seed) df c1 c2 m p g =
      optimize_pareto_front (search seed') df' c1' c2' m' p' g' := by
  subst hseed hdf hc1 hc2 hm hp hg
  rfl

/-- Witness for C9 at a concrete seed and input. -/
theorem deterministic_under_seed_witness :
    optimize_pareto_front (exSeedSearch 42) exDF "m" "c" 30 100 50 =
      optimize_pareto_front (exSeedSearch 42) exDF "m" "c" 30 100 50 :=
  deterministic_under_seed exSeedSearch 42 42 exDF exDF "m" "m" "c" "c" 30 30 100 100 50 50
    rfl rfl rfl rfl rfl rfl rfl

/-- `dropna` does not change the column list, so column positions agree. -/
theorem dropna_colIdx (df : DataFrame) (c1 c2 c : String) :
    (df.dropna c1 c2).colIdx c = df.colIdx c := rfl

/-- **C4** Every row of the returned full-row frontier is (label and all cell
values included) a row of the NaN-cleaned input table: the reconstruction
only slices, deduplicates and reorders rows of `df_clean`. -/
theorem frontier_rows_from_cleaned_input (search : SearchFn) (df : DataFrame)
    (c1 c2 : String) (m p g : ℕ) (objOut fullOut : DataFrame)
    (h : tryBody search df c1 c2 m p g = Except.ok (objOut, fullOut)) :
    ∀ r ∈ fullOut.rows, r ∈ (df.dropna c1 c2).rows := by
  obtain ⟨-, -, -, -, -, result, -, hout⟩ := tryBody_ok_elim h
  have hfull : fullOut.rows = frontierOf df c1 c2 result := by
    have := congrArg (fun x => x.2.rows) hout
    simpa using this
  rw [hfull]
  intro r hr
  exact mem_collectRows (mem_drop_duplicates (mem_sort_values.mp hr))

/-- Witness for C4 on a concrete successful run: the first frontier row is a
row of the cleaned input. -/
theorem frontier_rows_from_cleaned_input_witness :
    (⟨1, [Cell.num 1, Cell.num 9, Cell.str "y"]⟩ : Row) ∈ (exDF.dropna "m" "c").rows :=
  frontier_rows_from_cleaned_input exSearch exDF "m" "c" 30 100 50 exObjOut exFullOut rfl
    ⟨1, [Cell.num 1, Cell.num 9, Cell.str "y"]⟩ (by decide)

/-- **C7** The two outputs of a successful call are consistent views of one
row set: the objective-only table has columns exactly `[c1, c2]` and dense
labels `0..k-1`, the full-row table keeps the cleaned input's columns and its
rows verbatim (original labels preserved), both have the same length, and the
`n`-th objective-only row holds exactly the `(c1, c2)` cells of the `n`-th
full row. -/
theorem two_views_consistent (search : SearchFn) (df : DataFrame)
    (c1 c2 : String) (m p g : ℕ) (objOut fullOut : DataFrame)
    (h : tryBody search df c1 c2 m p g = Except.ok (objOut, fullOut)) :
    objOut.cols = [c1, c2] ∧
    fullOut.cols = (df.dropna c1 c2).cols ∧ fullOut.cols = df.cols ∧
    objOut.rows.length = fullOut.rows.length ∧
    (∀ n : ℕ, objOut.rows[n]? = fullOut.rows[n]?.map (fun r =>
      ⟨n, [rowObj ((df.dropna c1 c2).colIdx c1) r,
           rowObj ((df.dropna c1 c2).colIdx c2) r]⟩)) ∧
    (∀ r ∈ fullOut.rows, r ∈ (df.dropna c1 c2).rows) := by
  obtain ⟨-, -, -, -, -, result, -, hout⟩ := tryBody_ok_elim h
  have hobj : objOut = ⟨[c1, c2],
      reset_index (selectTwoCols ((df.dropna c1 c2).colIdx c1)
        ((df.dropna c1 c2).colIdx c2) (frontierOf df c1 c2 result))⟩ := by
    have := congrArg Prod.fst hout
    simpa using this
  have hfull : fullOut = ⟨(df.dropna c1 c2).cols, frontierOf df c1 c2 result⟩ := by
    have := congrArg Prod.snd hout
    simpa using this
  subst hobj hfull
  refine ⟨rfl, rfl, rfl, ?_, ?_, ?_⟩
  · simp [length_reset_index, length_selectTwoCols]
  · intro n
    rw [reset_index_getElem?, selectTwoCols_getElem?]
    cases (frontierOf df c1 c2 result)[n]? <;> simp
  · intro r hr
    exact mem_collectRows (mem_drop_duplicates (mem_sort_values.mp hr))

/-- Witness for C7 on a concrete successful run. -/
theorem two_views_consistent_witness :
    exObjOut.cols = ["m", "c"] ∧
    exFullOut.cols = (exDF.dropna "m" "c").cols ∧ exFullOut.cols = exDF.cols ∧
    exObjOut.rows.length = exFullOut.rows.length ∧
    (∀ n : ℕ, exObjOut.rows[n]? = exFullOut.rows[n]?.map (fun r =>
      ⟨n, [rowObj ((exDF.dropna "m" "c").colIdx "m") r,
           rowObj ((exDF.dropna "m" "c").colIdx "c") r]⟩)) ∧
    (∀ r ∈ exFullOut.rows, r ∈ (exDF.dropna "m" "c").rows) :=
  two_views_consistent exSearch exDF "m" "c" 30 100 50 exObjOut exFullOut rfl

/-- The claim's adjacent-row sort condition on cell lists: both rows carry
numbers in the two objective positions, the first objectives ascend, and on a
tie the second objectives ascend. -/
def AdjacentSortedC (i1 i2 : ℕ) (cs cs' : List Cell) : Prop :=
  ∃ a b a' b' : ℚ,
    cellAt i1 cs = Cell.num a ∧ cellAt i2 cs = Cell.num b ∧
    cellAt i1 cs' = Cell.num a' ∧ cellAt i2 cs' = Cell.num b' ∧
    a ≤ a' ∧ (a = a' → b ≤ b')

theorem keyLt_num_iff {a b : ℚ} : keyLt (Cell.num a) (Cell.num b) = true ↔ a < b := by
  simp [keyLt]

theorem keyEq_num_iff {a b : ℚ} : keyEq (Cell.num a) (Cell.num b) = true ↔ a = b := by
  simp [keyEq]

theorem keyLe_num_iff {a b : ℚ} : keyLe (Cell.num a) (Cell.num b) = true ↔ a ≤ b := by
  simp [keyLe, keyLt, keyEq, le_iff_lt_or_eq]

/-- A cells-determined chain property is preserved by relabelling. -/
theorem chain'_relabelFrom_of_cells {P : List Cell → List Cell → Prop} {l : List Row}
    (h : List.Chain' (fun r r' => P r.cells r'.cells) l) (k : ℕ) :
    List.Chain' (fun r r' => P r.cells r'.cells) (relabelFrom k l) := by
  have h1 : List.Chain' P (l.map Row.cells) := (List.chain'_map Row.cells).mpr h
  have h2 : List.Chain' P ((relabelFrom k l).map Row.cells) := by
    rw [relabelFrom_map_cells]
    exact h1
  exact (List.chain'_map Row.cells).mp h2

/-- **C6** Both output tables of a successful call are sorted ascending
lexicographically by `(obj1_col, obj2_col)`: adjacent rows have ascending
first objectives, and on a first-objective tie ascending second objectives
(the objective cells are genuine numbers on the success path). -/
theorem frontier_sorted_lex (search : SearchFn) (df : DataFrame)
    (c1 c2 : String) (m p g : ℕ) (objOut fullOut : DataFrame)
    (h : tryBody search df c1 c2 m p g = Except.ok (objOut, fullOut)) :
    List.Chain' (fun r r' =>
      AdjacentSortedC (df.colIdx c1) (df.colIdx c2) r.cells r'.cells) fullOut.rows ∧
    List.Chain' (fun r r' => AdjacentSortedC 0 1 r.cells r'.cells) objOut.rows := by
  obtain ⟨-, -, hn1, hn2, -, result, -, hout⟩ := tryBody_ok_elim h
  have hobj : objOut.rows = reset_index (selectTwoCols ((df.dropna c1 c2).colIdx c1)
      ((df.dropna c1 c2).colIdx c2) (frontierOf df c1 c2 result)) := by
    have := congrArg (fun x => x.1.rows) hout
    simpa using this
  have hfull : fullOut.rows = frontierOf df c1 c2 result := by
    have := congrArg (fun x => x.2.rows) hout
    simpa using this
  have hmem : ∀ r ∈ frontierOf df c1 c2 result, r ∈ (df.dropna c1 c2).rows := fun r hr =>
    mem_collectRows (mem_drop_duplicates (mem_sort_values.mp hr))
  have hsorted : List.Sorted (RowLe (df.colIdx c1) (df.colIdx c2))
      (frontierOf df c1 c2 result) :=
    sorted_sort_values ((df.dropna c1 c2).colIdx c1) ((df.dropna c1 c2).colIdx c2)
      (drop_duplicates (collectRows (df.dropna c1 c2).rows result))
  have hpair : List.Pairwise (fun r r' =>
      AdjacentSortedC (df.colIdx c1) (df.colIdx c2) r.cells r'.cells)
      (frontierOf df c1 c2 result) := by
    refine List.Pairwise.imp_of_mem ?_ hsorted
    intro a b ha hb hab
    obtain ⟨a1, ha1⟩ := exists_num_left hn1 (hmem a ha)
    obtain ⟨a2, ha2⟩ := exists_num_right hn2 (hmem a ha)
    obtain ⟨b1, hb1⟩ := exists_num_left hn1 (hmem b hb)
    obtain ⟨b2, hb2⟩ := exists_num_right hn2 (hmem b hb)
    rcases hab with hlt | ⟨heq, hle⟩
    · rw [ha1, hb1] at hlt
      have hq := keyLt_num_iff.mp hlt
      exact ⟨a1, a2, b1, b2, ha1, ha2, hb1, hb2, le_of_lt hq,
        fun he => absurd he (ne_of_lt hq)⟩
    · rw [ha1, hb1] at heq
      rw [ha2, hb2] at hle
      exact ⟨a1, a2, b1, b2, ha1, ha2, hb1, hb2, le_of_eq (keyEq_num_iff.mp heq),
        fun _ => keyLe_num_iff.mp hle⟩
  refine ⟨by rw [hfull]; exact List.Pairwise.chain' hpair, ?_⟩
  have hmapped : List.Chain' (fun r r' => AdjacentSortedC 0 1 r.cells r'.cells)
      (selectTwoCols ((df.dropna c1 c2).colIdx c1) ((df.dropna c1 c2).colIdx c2)
        (frontierOf df c1 c2 result)) := by
    unfold selectTwoCols
    rw [List.chain'_map]
    refine (List.Pairwise.chain' hpair).imp ?_
    intro a b hab
    obtain ⟨a1, a2, b1, b2, ha1, ha2, hb1, hb2, hle1, hle2⟩ := hab
    exact ⟨a1, a2, b1, b2, ha1, ha2, hb1, hb2, hle1, hle2⟩
  rw [hobj]
  unfold reset_index
  exact chain'_relabelFrom_of_cells hmapped 0

/-- Witness for C6 on a concrete successful run. -/
theorem frontier_sorted_lex_witness :
    List.Chain' (fun r r' =>
      AdjacentSortedC (exDF.colIdx "m") (exDF.colIdx "c") r.cells r'.cells) exFullOut.rows ∧
    List.Chain' (fun r r' => AdjacentSortedC 0 1 r.cells r'.cells) exObjOut.rows :=
  frontier_sorted_lex exSearch exDF "m" "c" 30 100 50 exObjOut exFullOut rfl

/-- **C10** Deduplication compares entire rows, not objective pairs: two
distinct cleaned-input rows with equal objective values but different values
elsewhere both appear in the returned frontier whenever the optimizer's final
result selects both of them. -/
theorem dedup_compares_whole_rows (search : SearchFn) (df : DataFrame) (c1 c2 : String)
    (m p g : ℕ) (objOut fullOut : DataFrame) (result : List Solution)
    (i j : ℕ) (ri rj : Row) (s t : Solution)
    (h : tryBody search df c1 c2 m p g = Except.ok (objOut, fullOut))
    (hres : search (df.dropna c1 c2) c1 c2 p g = Except.ok result)
    (hi : (df.dropna c1 c2).rows[i]? = some ri)
    (hj : (df.dropna c1 c2).rows[j]? = some rj)
    (hobj1 : rowObj (df.colIdx c1) ri = rowObj (df.colIdx c1) rj)
    (hobj2 : rowObj (df.colIdx c2) ri = rowObj (df.colIdx c2) rj)
    (hne : ri.cells ≠ rj.cells)
    (hs : s ∈ result) (hsi : s.idx = i)
    (hs1 : s.obj1.isSome = true) (hs2 : s.obj2.isSome = true)
    (ht : t ∈ result) (htj : t.idx = j)
    (ht1 : t.obj1.isSome = true) (ht2 : t.obj2.isSome = true) :
    (∃ r ∈ fullOut.rows, r.cells = ri.cells) ∧
    (∃ r ∈ fullOut.rows, r.cells = rj.cells) := by
  obtain ⟨-, -, -, -, -, result', hres', hout⟩ := tryBody_ok_elim h
  rw [hres] at hres'
  injection hres' with hrr
  subst hrr
  have hfull : fullOut.rows = frontierOf df c1 c2 result := by
    have := congrArg (fun x => x.2.rows) hout
    simpa using this
  rw [hfull]
  unfold frontierOf
  constructor
  · have hcoll : ri ∈ collectRows (df.dropna c1 c2).rows result :=
      mem_collectRows_of_sol hs hs1 hs2 (by rw [hsi]; exact hi)
    obtain ⟨r', hr', hcells⟩ := exists_cells_mem_drop_duplicates hcoll
    exact ⟨r', mem_sort_values.mpr hr', hcells⟩
  · have hcoll : rj ∈ collectRows (df.dropna c1 c2).rows result :=
      mem_collectRows_of_sol ht ht1 ht2 (by rw [htj]; exact hj)
    obtain ⟨r', hr', hcells⟩ := exists_cells_mem_drop_duplicates hcoll
    exact ⟨r', mem_sort_values.mpr hr', hcells⟩

/-- Witness for C10: rows 1 and 2 of `exDF` share objective values `(1, 9)`
but differ in the `tag` column; both survive into the frontier. -/
theorem dedup_compares_whole_rows_witness :
    (∃ r ∈ exFullOut.rows, r.cells = [Cell.num 1, Cell.num 9, Cell.str "y"]) ∧
    (∃ r ∈ exFullOut.rows, r.cells = [Cell.num 1, Cell.num 9, Cell.str "z"]) :=
  dedup_compares_whole_rows exSearch exDF "m" "c" 30 100 50 exObjOut exFullOut exResult
    1 2 ⟨1, [Cell.num 1, Cell.num 9, Cell.str "y"]⟩ ⟨2, [Cell.num 1, Cell.num 9, Cell.str "z"]⟩
    ⟨1, some 1, some 9⟩ ⟨2, some 1, some 9⟩
    rfl rfl (by decide) (by decide) (by decide) (by decide) (by decide)
    (by decide) rfl (by decide) (by decide) (by decide) rfl (by decide) (by decide)

/-- A candidate table for C1: row 0 `(10, 100)` is dominated by row 1
`(10, 50)` (equal first objective, strictly smaller second objective). -/
def domDF : DataFrame :=
  ⟨["fini_Mg", "fini_Ca"],
   [⟨0, [Cell.num 10, Cell.num 100]⟩, ⟨1, [Cell.num 10, Cell.num 50]⟩]⟩

/-- An optimizer result selecting both rows of `domDF`, each solution carrying
its correctly evaluated objectives.  `platypus`'s `NSGAII.result` is the final
population, which can contain dominated individuals (e.g. the unconverged
initial population: `run(generations)` counts function evaluations, so with
`population_size=100` and `generations=50` the run stops during
initialization), so this is a reachable outcome. -/
def domResult : List Solution :=
  [⟨0, some 10, some 100⟩, ⟨1, some 10, some 50⟩]

/-- The search behaviour returning `domResult`. -/
def domSearch : SearchFn := fun _ _ _ _ _ => Except.ok domResult

/-- Row `b` dominates row `a` in the claim's sense: weakly better in both
objective columns and strictly better in at least one. -/
def DominatesRow (i1 i2 : ℕ) (b a : Row) : Prop :=
  ∃ b1 b2 a1 a2 : ℚ,
    rowObj i1 b = Cell.num b1 ∧ rowObj i2 b = Cell.num b2 ∧
    rowObj i1 a = Cell.num a1 ∧ rowObj i2 a = Cell.num a2 ∧
    b1 ≤ a1 ∧ b2 ≤ a2 ∧ (b1 < a1 ∨ b2 < a2)

/-- **C1 fails on the code** (the claim that every success-path frontier is
mutually non-dominated is false): the reconstruction of lines 88-100 applies
only `drop_duplicates` and `sort_values`, no non-domination filter, so a
dominated solution in the optimizer's result passes straight into both
outputs.  Concretely: with candidate rows `(10, 100)` and `(10, 50)` and a
result selecting both (with correctly evaluated objectives, first conjunct),
the call succeeds and the returned full-row frontier contains a pair of
distinct rows one of which dominates the other — contradicting the claim,
the spec's non-domination property and the function's own docstring
("finds the Pareto optimal solutions"). -/
theorem success_frontier_contains_dominated_row :
    (∀ s ∈ domResult, evaluateSolution (domDF.dropna "fini_Mg" "fini_Ca")
        "fini_Mg" "fini_Ca" s.idx = some (s.obj1, s.obj2)) ∧
    ∃ objOut fullOut,
      tryBody domSearch domDF "fini_Mg" "fini_Ca" 30 100 50 =
        Except.ok (objOut, fullOut) ∧
      optimize_pareto_front domSearch domDF "fini_Mg" "fini_Ca" 30 100 50 =
        (objOut, fullOut) ∧
      ∃ a ∈ fullOut.rows, ∃ b ∈ fullOut.rows, a ≠ b ∧
        DominatesRow (domDF.colIdx "fini_Mg") (domDF.colIdx "fini_Ca") b a := by
  refine ⟨by decide,
    ⟨["fini_Mg", "fini_Ca"],
      [⟨0, [Cell.num 10, Cell.num 50]⟩, ⟨1, [Cell.num 10, Cell.num 100]⟩]⟩,
    ⟨["fini_Mg", "fini_Ca"],
      [⟨1, [Cell.num 10, Cell.num 50]⟩, ⟨0, [Cell.num 10, Cell.num 100]⟩]⟩,
    rfl, rfl,
    ⟨0, [Cell.num 10, Cell.num 100]⟩, by decide,
    ⟨1, [Cell.num 10, Cell.num 50]⟩, by decide,
    by decide,
    10, 50, 10, 100, by decide, by decide, by decide, by decide,
    le_refl _, by norm_num, Or.inr (by norm_num)⟩

end Pareto
